import Mathlib

/-!
Shallow embedding of the reservation system's core
(`ReservationsService` in `src/unnamed/part_004`,
`ProductsService.incrementStock` in `src/backend/src/app.module.ts`,
`expireReservationsAndRestoreStock` / `scheduleExpirationJob` in
`src/backend/src/reservations/utils/reservation.utils.ts`,
constants in `src/backend/src/common/constants.ts`).

Modelling conventions:
* Timestamps are milliseconds as `Nat`; `JS now` is passed explicitly.
* Ids are `Nat` (the seed data uses string ids "1".."6"); BullMQ job keys
  keep their string shape `"expire-" ++ toString id`.
* A Prisma interactive transaction is modelled as a write log: writes made
  through the transaction handle `tx` are buffered in a `List Write` and
  applied to the database only on commit; a thrown exception discards the
  log (rollback).  Crucially, `ProductsService.incrementStock` issues its
  update through `this.prisma` — NOT through `tx` — so inside `complete`
  and `expire` the stock increment commits to the base database
  immediately and is not undone by a rollback of the enclosing
  transaction.  `availableStock` is `Int` because Prisma's unchecked
  `decrement` could in principle drive it below zero.
-/

namespace ReservationSystem

/-- Status enum `ReservationStatus` from src/backend/src/common/constants.ts. -/
inductive ReservationStatus where
  | active
  | completed
  | expired
deriving DecidableEq

/-- Constant `RESERVATION_DURATION_MS = 2 * 60 * 1000` from constants.ts. -/
def RESERVATION_DURATION_MS : Nat := 2 * 60 * 1000

/-- A product row: only the fields the core mutates/reads. -/
structure Product where
  id : Nat
  availableStock : Int
deriving DecidableEq

/-- A reservation row. -/
structure Reservation where
  id : Nat
  productId : Nat
  quantity : Nat
  status : ReservationStatus
  expiresAt : Nat
deriving DecidableEq

/-- The database: product table, reservation table, and the id the next
`reservation.create` will be given (Prisma generates fresh ids at insert). -/
structure DB where
  products : List Product
  reservations : List Reservation
  nextId : Nat
deriving DecidableEq

/-- Embeds `prisma.product.findUnique` by product id. -/
def DB.findProduct (db : DB) (pid : Nat) : Option Product :=
  db.products.find? (fun p => p.id == pid)

/-- Embeds `prisma.reservation.findUnique` by reservation id. -/
def DB.findReservation (db : DB) (rid : Nat) : Option Reservation :=
  db.reservations.find? (fun r => r.id == rid)

/-- One row-level write, as issued by the services. -/
inductive Write where
  /-- Embeds `reservation.updateMany` over the ids `rids`, setting `status`. -/
  | setStatusMany (rids : List Nat) (st : ReservationStatus)
  /-- Embeds `reservation.update` of the reservation `rid`, setting `status`. -/
  | setStatus (rid : Nat) (st : ReservationStatus)
  /-- Embeds `reservation.create` inserting the record `r`. -/
  | createRes (r : Reservation)
  /-- Embeds `product.update` incrementing `availableStock` of `pid` by `n`. -/
  | incStock (pid : Nat) (n : Nat)
  /-- Embeds `product.update` decrementing `availableStock` of `pid` by `n`. -/
  | decStock (pid : Nat) (n : Nat)

/-- Apply one write to the database. -/
def applyWrite (db : DB) (w : Write) : DB :=
  match w with
  | .setStatusMany rids st =>
      { db with reservations :=
          db.reservations.map (fun r =>
            if rids.contains r.id then { r with status := st } else r) }
  | .setStatus rid st =>
      { db with reservations :=
          db.reservations.map (fun r =>
            if r.id == rid then { r with status := st } else r) }
  | .createRes r =>
      { db with reservations := db.reservations ++ [r], nextId := db.nextId + 1 }
  | .incStock pid n =>
      { db with products :=
          db.products.map (fun p =>
            if p.id == pid then { p with availableStock := p.availableStock + n } else p) }
  | .decStock pid n =>
      { db with products :=
          db.products.map (fun p =>
            if p.id == pid then { p with availableStock := p.availableStock - n } else p) }

/-- Apply a transaction's buffered write log in order (commit). -/
def applyLog (db : DB) (log : List Write) : DB :=
  log.foldl applyWrite db

/-- The typed errors thrown by the services (NestJS exceptions). -/
inductive ServiceError where
  /-- Error `NotFoundException`. -/
  | notFound
  /-- Error `BadRequestException` with the insufficient-stock message. -/
  | insufficientStock
  /-- Error `BadRequestException` with the cannot-complete message. -/
  | invalidStatus
  /-- Error `BadRequestException` with the has-expired message. -/
  | reservationExpired
deriving DecidableEq

/-- Step 1 of `ReservationsService.create` (part_004 lines 49-55): the
Active reservations of this product whose `expiresAt <= now`. -/
def expiredFor (now pid : Nat) (db : DB) : List Reservation :=
  db.reservations.filter (fun r =>
    r.productId == pid && r.status == ReservationStatus.active && decide (r.expiresAt ≤ now))

/-- Embeds `expireReservationsAndRestoreStock` (reservation.utils.ts lines 13-40),
called with the transaction handle, hence producing buffered writes:
batch-update the given reservations to EXPIRED and restore the summed
quantity in one increment.  Early-returns on the empty list. -/
def expireRestoreLog (rs : List Reservation) (pid : Nat) : List Write :=
  if rs.isEmpty then []
  else [Write.setStatusMany (rs.map (fun r => r.id)) ReservationStatus.expired,
        Write.incStock pid (rs.map (fun r => r.quantity)).sum]

/-- Embeds `ReservationsService.create` (part_004 lines 43-127, transaction body
lines 46-116).  Every write goes through `tx`, so an exception rolls the
whole log back and the call returns the untouched database. -/
def create (now productId quantity : Nat) (db : DB) :
    Except ServiceError Reservation × DB :=
  let log1 := expireRestoreLog (expiredFor now productId db) productId
  let view1 := applyLog db log1
  match view1.findProduct productId with
  | none => (Except.error ServiceError.notFound, db)
  | some product =>
    if product.availableStock < (quantity : Int) then
      (Except.error ServiceError.insufficientStock, db)
    else
      let newRes : Reservation :=
        { id := view1.nextId, productId := productId, quantity := quantity,
          status := ReservationStatus.active,
          expiresAt := now + RESERVATION_DURATION_MS }
      (Except.ok newRes,
       applyLog db (log1 ++ [Write.createRes newRes, Write.decStock productId quantity]))

/-- Embeds `ReservationsService.findOne` (part_004 lines 129-142): a single
`findUnique` read; no write of any kind is issued, so the database
component of the result is the input database. -/
def findOne (id : Nat) (db : DB) : Except ServiceError Reservation × DB :=
  match db.findReservation id with
  | none => (Except.error ServiceError.notFound, db)
  | some r => (Except.ok r, db)

/-- Embeds `ReservationsService.complete` (part_004 lines 147-201).  On the
expired branch the `tx.reservation.update` to EXPIRED is buffered, then
`ProductsService.incrementStock` commits through `this.prisma` (outside
the transaction), then `BadRequestException` is thrown: the buffered
status write is rolled back while the stock increment stays.  (The
best-effort removal of the pending BullMQ job on the success path only
touches the job queue and is modelled with the queue operations below.) -/
def complete (now id : Nat) (db : DB) : Except ServiceError Reservation × DB :=
  match db.findReservation id with
  | none => (Except.error ServiceError.notFound, db)
  | some r =>
    if r.status ≠ ReservationStatus.active then
      (Except.error ServiceError.invalidStatus, db)
    else if r.expiresAt < now then
      -- txlog [.setStatus id .expired] is discarded by the throw;
      -- the out-of-transaction increment has already committed:
      (Except.error ServiceError.reservationExpired,
       applyWrite db (Write.incStock r.productId r.quantity))
    else
      (Except.ok { r with status := ReservationStatus.completed },
       applyWrite db (Write.setStatus id ReservationStatus.completed))

/-- Embeds `ReservationsService.expire` (part_004 lines 206-239).  Missing or
non-Active reservation: no-op.  Active: the buffered status write and the
out-of-transaction increment both end up committed (nothing throws). -/
def expire (id : Nat) (db : DB) : DB :=
  match db.findReservation id with
  | none => db
  | some r =>
    if r.status = ReservationStatus.active then
      applyWrite (applyWrite db (Write.incStock r.productId r.quantity))
        (Write.setStatus id ReservationStatus.expired)
    else db

/-- A BullMQ job: its `jobId` key and its delay in ms. -/
structure Job where
  key : String
  delay : Nat
deriving DecidableEq

/-- The stable job key `expire-<id>`. -/
def jobKey (id : Nat) : String := "expire-" ++ toString id

/-- Embeds `queue.getJob` by key. -/
def getJob (q : List Job) (key : String) : Option Job :=
  q.find? (fun j => j.key == key)

/-- Embeds `job.remove` for the job(s) with the given key. -/
def removeJob (q : List Job) (key : String) : List Job :=
  q.filter (fun j => j.key != key)

/-- Embeds `queue.add` with the given `jobId` key and `delay`. -/
def addJob (q : List Job) (key : String) (delay : Nat) : List Job :=
  q ++ [{ key := key, delay := delay }]

/-- Embeds `scheduleExpirationJob` (reservation.utils.ts lines 45-89): no-op if a
job with the key exists; otherwise `delay = Math.max(0, expiresAt - now)`
and the job is added only under `if (delay > 0)`. -/
def scheduleExpirationJob (now reservationId expiresAt : Nat) (q : List Job) : List Job :=
  match getJob q (jobKey reservationId) with
  | some _ => q
  | none =>
    let delay : Int := max 0 ((expiresAt : Int) - (now : Int))
    if 0 < delay then addJob q (jobKey reservationId) delay.toNat else q

/-- One iteration of the loop in `ReservationsService.recoverReservations`
(part_004 lines 297-349): `now > expiresAt` expires immediately;
otherwise `remainingTime = expiresAt - now`, and only `if remainingTime > 0`
the existing job (if any) is removed and a fresh one added. -/
def recoverStep (now : Nat) (st : DB × List Job) (r : Reservation) : DB × List Job :=
  if r.expiresAt < now then
    (expire r.id st.1, st.2)
  else if 0 < r.expiresAt - now then
    (st.1, addJob (removeJob st.2 (jobKey r.id)) (jobKey r.id) (r.expiresAt - now))
  else st

/-- Embeds `reservation.findMany` filtered to status ACTIVE: the snapshot of
Active reservations taken once at the start of recovery. -/
def activeSnapshot (db : DB) : List Reservation :=
  db.reservations.filter (fun r => r.status == ReservationStatus.active)

/-- Embeds `ReservationsService.recoverReservations` (part_004 lines 282-353):
snapshot the Active reservations once, then process each in order. -/
def recoverReservations (now : Nat) (db : DB) (q : List Job) : DB × List Job :=
  (activeSnapshot db).foldl (recoverStep now) (db, q)

/-- A client-visible mutating call, for reasoning about call sequences. -/
inductive Op where
  | create (now productId quantity : Nat)
  | complete (now id : Nat)
  | expire (id : Nat)

/-- Execute one call, keeping only its effect on the database. -/
def stepOp (db : DB) (op : Op) : DB :=
  match op with
  | .create now pid qty => (create now pid qty db).2
  | .complete now id => (complete now id db).2
  | .expire id => expire id db

/-- Execute a sequence of calls. -/
def run (db : DB) (ops : List Op) : DB :=
  ops.foldl stepOp db

/-- Sum of the quantities of a product's reservations that are Active or
Completed (the "held" quantity of the no-overselling property). -/
def heldQuantity (db : DB) (pid : Nat) : Nat :=
  ((db.reservations.filter (fun r =>
      r.productId == pid &&
        (r.status == ReservationStatus.active || r.status == ReservationStatus.completed))).map
    (fun r => r.quantity)).sum

/-- The jobs in a queue carrying a given key. -/
def keyJobs (q : List Job) (key : String) : List Job :=
  q.filter (fun j => j.key == key)

/-- A product with stock 1 and no reservations yet. -/
def db0 : DB :=
  { products := [{ id := 1, availableStock := 1 }], reservations := [], nextId := 1 }

/-- Reserve 1 unit at t=0; at t=200000 (past the 120000ms deadline) attempt
to complete; then the expiration worker fires; then reserve 2 units. -/
def oversellOps : List Op :=
  [Op.create 0 1 1, Op.complete 200000 1, Op.expire 1, Op.create 200000 1 2]

/-- A product with stock 0 whose single reservation of 1 unit is Active and
already past its deadline (expiresAt 100). -/
def dbStale : DB :=
  { products := [{ id := 1, availableStock := 0 }],
    reservations := [{ id := 1, productId := 1, quantity := 1,
                       status := ReservationStatus.active, expiresAt := 100 }],
    nextId := 2 }

/-- A product with stock 3 and one Active reservation of 2 units whose
deadline (120000) is still in the future. -/
def dbFresh : DB :=
  { products := [{ id := 1, availableStock := 3 }],
    reservations := [{ id := 1, productId := 1, quantity := 2,
                       status := ReservationStatus.active, expiresAt := 120000 }],
    nextId := 2 }

/-- Recovery scenario at now = 100: one reservation already past its
deadline (50), one exactly at the boundary (100), one in the future (150). -/
def dbRecover : DB :=
  { products := [{ id := 1, availableStock := 0 }],
    reservations := [{ id := 1, productId := 1, quantity := 2,
                       status := ReservationStatus.active, expiresAt := 50 },
                     { id := 2, productId := 1, quantity := 3,
                       status := ReservationStatus.active, expiresAt := 100 },
                     { id := 3, productId := 1, quantity := 4,
                       status := ReservationStatus.active, expiresAt := 150 }],
    nextId := 4 }

/-! ## General lemmas about the row-level operations -/

/-- Lookup `find?` commutes with mapping a function that does not change the
searched key. -/
theorem find?_map_of_key {α : Type} (g : α → α) (p : α → Bool)
    (hg : ∀ a, p (g a) = p a) :
    ∀ l : List α, (l.map g).find? p = (l.find? p).map g
  | [] => rfl
  | a :: l => by
    cases h : p a with
    | true =>
      rw [List.map_cons, List.find?_cons_of_pos _ (by rw [hg]; exact h),
          List.find?_cons_of_pos _ h, Option.map_some']
    | false =>
      rw [List.map_cons, List.find?_cons_of_neg _ (by simp [hg, h]),
          List.find?_cons_of_neg _ (by simp [h]), find?_map_of_key g p hg l]

/-- In a table whose ids are pairwise distinct, looking a member up by its
id finds exactly that member. -/
theorem find?_id_of_nodup :
    ∀ (l : List Reservation), (l.map Reservation.id).Nodup →
      ∀ r ∈ l, l.find? (fun x => x.id == r.id) = some r
  | [], _, r, hr => absurd hr (List.not_mem_nil r)
  | a :: l, hnd, r, hr => by
    rcases List.mem_cons.mp hr with rfl | hr'
    · exact List.find?_cons_of_pos _ (by simp)
    · have hne : a.id ≠ r.id := by
        intro he
        exact (List.nodup_cons.mp hnd).1 (he ▸ List.mem_map_of_mem Reservation.id hr')
      rw [List.find?_cons_of_neg _ (by simp [hne]),
          find?_id_of_nodup l (List.nodup_cons.mp hnd).2 r hr']

theorem findReservation_incStock (db : DB) (pid n id : Nat) :
    (applyWrite db (Write.incStock pid n)).findReservation id = db.findReservation id := rfl

theorem findReservation_decStock (db : DB) (pid n id : Nat) :
    (applyWrite db (Write.decStock pid n)).findReservation id = db.findReservation id := rfl

theorem findProduct_setStatus (db : DB) (rid : Nat) (st : ReservationStatus) (pid : Nat) :
    (applyWrite db (Write.setStatus rid st)).findProduct pid = db.findProduct pid := rfl

theorem findProduct_setStatusMany (db : DB) (rids : List Nat) (st : ReservationStatus) (pid : Nat) :
    (applyWrite db (Write.setStatusMany rids st)).findProduct pid = db.findProduct pid := rfl

theorem findProduct_createRes (db : DB) (r : Reservation) (pid : Nat) :
    (applyWrite db (Write.createRes r)).findProduct pid = db.findProduct pid := rfl

theorem findReservation_setStatus (db : DB) (rid : Nat) (st : ReservationStatus) (id : Nat) :
    (applyWrite db (Write.setStatus rid st)).findReservation id =
      (db.findReservation id).map
        (fun r => if r.id == rid then { r with status := st } else r) := by
  simp only [applyWrite, DB.findReservation]
  exact find?_map_of_key _ _ (fun a => by cases h : a.id == rid <;> simp [h]) _

theorem findProduct_incStock (db : DB) (pid n qid : Nat) :
    (applyWrite db (Write.incStock pid n)).findProduct qid =
      (db.findProduct qid).map
        (fun p => if p.id == pid then { p with availableStock := p.availableStock + n } else p) := by
  simp only [applyWrite, DB.findProduct]
  exact find?_map_of_key _ _ (fun a => by cases h : a.id == pid <;> simp [h]) _

theorem findProduct_decStock (db : DB) (pid n qid : Nat) :
    (applyWrite db (Write.decStock pid n)).findProduct qid =
      (db.findProduct qid).map
        (fun p => if p.id == pid then { p with availableStock := p.availableStock - n } else p) := by
  simp only [applyWrite, DB.findProduct]
  exact find?_map_of_key _ _ (fun a => by cases h : a.id == pid <;> simp [h]) _

theorem findReservation_beq {db : DB} {id : Nat} {r : Reservation}
    (h : db.findReservation id = some r) : (r.id == id) = true := by
  have h' : db.reservations.find? (fun x => x.id == id) = some r := h
  simpa using List.find?_some h'

theorem findProduct_beq {db : DB} {pid : Nat} {p : Product}
    (h : db.findProduct pid = some p) : (p.id == pid) = true := by
  have h' : db.products.find? (fun x => x.id == pid) = some p := h
  simpa using List.find?_some h'

/-! ## Unfolding lemmas for `expire` -/

theorem expire_of_none {db : DB} {id : Nat}
    (h : db.findReservation id = none) : expire id db = db := by
  unfold expire; rw [h]

theorem expire_of_notActive {db : DB} {id : Nat} {r : Reservation}
    (h : db.findReservation id = some r) (hn : r.status ≠ ReservationStatus.active) :
    expire id db = db := by
  unfold expire; rw [h]; simp [hn]

theorem expire_of_active {db : DB} {id : Nat} {r : Reservation}
    (h : db.findReservation id = some r) (hact : r.status = ReservationStatus.active) :
    expire id db =
      applyWrite (applyWrite db (Write.incStock r.productId r.quantity))
        (Write.setStatus id ReservationStatus.expired) := by
  unfold expire; rw [h]; simp [hact]

theorem findReservation_expire_self {db : DB} {id : Nat} {r : Reservation}
    (h : db.findReservation id = some r) (hact : r.status = ReservationStatus.active) :
    (expire id db).findReservation id = some { r with status := ReservationStatus.expired } := by
  rw [expire_of_active h hact, findReservation_setStatus, findReservation_incStock, h,
      Option.map_some']
  simp [findReservation_beq h]

/-! ## Queue filtering lemmas -/

theorem keyJobs_append (q q' : List Job) (k : String) :
    keyJobs (q ++ q') k = keyJobs q k ++ keyJobs q' k :=
  List.filter_append _ _

theorem keyJobs_removeJob_self (q : List Job) (k : String) :
    keyJobs (removeJob q k) k = [] := by
  unfold keyJobs removeJob
  induction q with
  | nil => rfl
  | cons j q ih =>
    by_cases h : j.key = k
    · simp [List.filter_cons, h, ih]
    · simp [List.filter_cons, h, ih]

theorem keyJobs_removeJob_ne (q : List Job) (k k' : String) (h : k' ≠ k) :
    keyJobs (removeJob q k) k' = keyJobs q k' := by
  have h' : ¬(k = k') := Ne.symm h
  unfold keyJobs removeJob
  induction q with
  | nil => rfl
  | cons j q ih =>
    by_cases hj : j.key = k
    · have hj' : j.key ≠ k' := by rw [hj]; exact Ne.symm h
      simpa [List.filter_cons, hj, hj', h, h'] using ih
    · by_cases hj' : j.key = k'
      · simpa [List.filter_cons, hj, hj', h, h'] using ih
      · simpa [List.filter_cons, hj, hj', h, h'] using ih

theorem keyJobs_addJob_self (q : List Job) (k : String) (d : Nat) :
    keyJobs (addJob q k d) k = keyJobs q k ++ [{ key := k, delay := d }] := by
  unfold keyJobs addJob
  rw [List.filter_append]
  simp

theorem keyJobs_addJob_ne (q : List Job) (k k' : String) (d : Nat) (h : k' ≠ k) :
    keyJobs (addJob q k d) k' = keyJobs q k' := by
  have h' : ¬(k = k') := Ne.symm h
  unfold keyJobs addJob
  rw [List.filter_append]
  simp [h']

/-! ## The effect of folding `recoverStep` over a snapshot list -/

theorem findReservation_expire_map (db : DB) (aid : Nat) {a : Reservation}
    (hA : db.findReservation aid = some a) (haact : a.status = ReservationStatus.active)
    (id : Nat) :
    (expire aid db).findReservation id =
      (db.findReservation id).map
        (fun r => if r.id == aid then { r with status := ReservationStatus.expired } else r) := by
  rw [expire_of_active hA haact, findReservation_setStatus, findReservation_incStock]

theorem findReservation_expire_ne (db : DB) (aid : Nat) {a : Reservation}
    (hA : db.findReservation aid = some a) (haact : a.status = ReservationStatus.active)
    (id : Nat) (hne : id ≠ aid) :
    (expire aid db).findReservation id = db.findReservation id := by
  rw [findReservation_expire_map db aid hA haact]
  cases hfd : db.findReservation id with
  | none => rfl
  | some r' =>
    have hr' : r'.id = id := eq_of_beq (findReservation_beq hfd)
    rw [Option.map_some']
    simp [hr', hne]

theorem findProduct_expire (db : DB) (aid : Nat) {a : Reservation}
    (hA : db.findReservation aid = some a) (haact : a.status = ReservationStatus.active)
    (pid : Nat) {p : Product} (hp : db.findProduct pid = some p) :
    (expire aid db).findProduct pid =
      some (if pid == a.productId then
              { p with availableStock := p.availableStock + a.quantity } else p) := by
  rw [expire_of_active hA haact, findProduct_setStatus, findProduct_incStock, hp,
      Option.map_some']
  have hpid : p.id = pid := eq_of_beq (findProduct_beq hp)
  by_cases hc : pid = a.productId
  · simp [hpid, hc]
  · simp [hpid, hc]

/-- The per-item effect of `recoverReservations`' loop over a snapshot
list `rs` of reservations that are present (by id) and Active in `db`,
with pairwise-distinct job keys.  Characterises the final database and
queue: reservations already past the deadline end up Expired; those not
past it are untouched; strictly-future ones end up with exactly one
queued task carrying the remaining delay; boundary ones leave the queue
key untouched; everything with an id/key outside `rs` is untouched; and
each product's stock grows by the summed quantities of the expired
members. -/
theorem recover_foldl_spec (now : Nat) :
    ∀ (rs : List Reservation) (db : DB) (q : List Job),
      (∀ r ∈ rs, db.findReservation r.id = some r) →
      (∀ r ∈ rs, r.status = ReservationStatus.active) →
      (rs.map (fun r => jobKey r.id)).Nodup →
      (∀ id, (∀ r ∈ rs, r.id ≠ id) →
        (rs.foldl (recoverStep now) (db, q)).1.findReservation id = db.findReservation id) ∧
      (∀ k, (∀ r ∈ rs, jobKey r.id ≠ k) →
        keyJobs (rs.foldl (recoverStep now) (db, q)).2 k = keyJobs q k) ∧
      (∀ r ∈ rs, r.expiresAt < now →
        (rs.foldl (recoverStep now) (db, q)).1.findReservation r.id =
          some { r with status := ReservationStatus.expired }) ∧
      (∀ r ∈ rs, ¬ r.expiresAt < now →
        (rs.foldl (recoverStep now) (db, q)).1.findReservation r.id = some r) ∧
      (∀ r ∈ rs, now < r.expiresAt →
        keyJobs (rs.foldl (recoverStep now) (db, q)).2 (jobKey r.id) =
          [{ key := jobKey r.id, delay := r.expiresAt - now }]) ∧
      (∀ r ∈ rs, ¬ now < r.expiresAt →
        keyJobs (rs.foldl (recoverStep now) (db, q)).2 (jobKey r.id) =
          keyJobs q (jobKey r.id)) ∧
      (∀ pid p, db.findProduct pid = some p →
        (rs.foldl (recoverStep now) (db, q)).1.findProduct pid =
          some { p with availableStock := p.availableStock +
            ((rs.filter (fun r => decide (r.expiresAt < now) && r.productId == pid)).map
              (fun r => r.quantity)).sum }) := by
  intro rs
  induction rs with
  | nil =>
    intro db q _ _ _
    refine ⟨fun id _ => rfl, fun k _ => rfl, by simp, by simp, by simp, by simp, ?_⟩
    intro pid p hp
    simpa using hp
  | cons a l ih =>
    intro db q hmem hact hnd
    have hA : db.findReservation a.id = some a := hmem a (List.mem_cons_self a l)
    have haact : a.status = ReservationStatus.active := hact a (List.mem_cons_self a l)
    have hnd2 : jobKey a.id ∉ l.map (fun r => jobKey r.id) ∧
        (l.map (fun r => jobKey r.id)).Nodup := by
      simpa [List.nodup_cons] using hnd
    have hk : ∀ r ∈ l, jobKey r.id ≠ jobKey a.id := by
      intro r hr he
      exact hnd2.1 (he ▸ List.mem_map_of_mem _ hr)
    have hid : ∀ r ∈ l, r.id ≠ a.id := fun r hr he => hk r hr (by rw [he])
    have hmemt : ∀ r ∈ l, db.findReservation r.id = some r :=
      fun r hr => hmem r (List.mem_cons_of_mem a hr)
    have hactt : ∀ r ∈ l, r.status = ReservationStatus.active :=
      fun r hr => hact r (List.mem_cons_of_mem a hr)
    rw [List.foldl_cons]
    by_cases h1 : a.expiresAt < now
    · -- the reservation is already past its deadline: expire it
      have hstep : recoverStep now (db, q) a = (expire a.id db, q) := by
        simp [recoverStep, h1]
      rw [hstep]
      have hmem' : ∀ r ∈ l, (expire a.id db).findReservation r.id = some r :=
        fun r hr => (findReservation_expire_ne db a.id hA haact r.id (hid r hr)).trans
          (hmemt r hr)
      obtain ⟨ih1, ih2, ih3, ih4, ih5, ih6, ih7⟩ :=
        ih (expire a.id db) q hmem' hactt hnd2.2
      refine ⟨?_, ?_, ?_, ?_, ?_, ?_, ?_⟩
      · intro id hne
        rw [ih1 id (fun r hr => hne r (List.mem_cons_of_mem a hr)),
            findReservation_expire_ne db a.id hA haact id
              (fun he => hne a (List.mem_cons_self a l) he.symm)]
      · intro k hkk
        exact ih2 k (fun r hr => hkk r (List.mem_cons_of_mem a hr))
      · intro r hr hlt
        rcases List.mem_cons.mp hr with rfl | hr'
        · rw [ih1 r.id (hid), findReservation_expire_self hA haact]
        · exact ih3 r hr' hlt
      · intro r hr hnlt
        rcases List.mem_cons.mp hr with rfl | hr'
        · exact absurd h1 hnlt
        · exact ih4 r hr' hnlt
      · intro r hr hlt
        rcases List.mem_cons.mp hr with rfl | hr'
        · exact absurd h1 (lt_asymm hlt)
        · exact ih5 r hr' hlt
      · intro r hr hnlt
        rcases List.mem_cons.mp hr with rfl | hr'
        · exact ih2 (jobKey r.id) hk
        · exact ih6 r hr' hnlt
      · intro pid p hp
        have hstepP := findProduct_expire db a.id hA haact pid hp
        have hfin := ih7 pid _ hstepP
        rw [hfin]
        by_cases hc : pid = a.productId
        · simp [List.filter_cons, h1, hc, Nat.cast_add, add_assoc]
        · have hc2 : ¬ a.productId = pid := fun he => hc he.symm
          simp [List.filter_cons, h1, hc, hc2]
    · by_cases h2 : 0 < a.expiresAt - now
      · -- still in the future: remove any stale job and reschedule
        have hfut : now < a.expiresAt := by omega
        have hstep : recoverStep now (db, q) a =
            (db, addJob (removeJob q (jobKey a.id)) (jobKey a.id) (a.expiresAt - now)) := by
          simp [recoverStep, h1, h2]
        rw [hstep]
        have g1 : keyJobs (addJob (removeJob q (jobKey a.id)) (jobKey a.id)
            (a.expiresAt - now)) (jobKey a.id) =
            [{ key := jobKey a.id, delay := a.expiresAt - now }] := by
          rw [keyJobs_addJob_self, keyJobs_removeJob_self]
          rfl
        have g2 : ∀ k, k ≠ jobKey a.id →
            keyJobs (addJob (removeJob q (jobKey a.id)) (jobKey a.id)
              (a.expiresAt - now)) k = keyJobs q k := by
          intro k hkne
          rw [keyJobs_addJob_ne _ _ _ _ hkne, keyJobs_removeJob_ne _ _ _ hkne]
        obtain ⟨ih1, ih2, ih3, ih4, ih5, ih6, ih7⟩ :=
          ih db _ hmemt hactt hnd2.2
        refine ⟨?_, ?_, ?_, ?_, ?_, ?_, ?_⟩
        · intro id hne
          exact ih1 id (fun r hr => hne r (List.mem_cons_of_mem a hr))
        · intro k hkk
          rw [ih2 k (fun r hr => hkk r (List.mem_cons_of_mem a hr)),
              g2 k (Ne.symm (hkk a (List.mem_cons_self a l)))]
        · intro r hr hlt
          rcases List.mem_cons.mp hr with rfl | hr'
          · exact absurd hlt h1
          · exact ih3 r hr' hlt
        · intro r hr hnlt
          rcases List.mem_cons.mp hr with rfl | hr'
          · rw [ih1 r.id (hid), hA]
          · exact ih4 r hr' hnlt
        · intro r hr hlt
          rcases List.mem_cons.mp hr with rfl | hr'
          · rw [ih2 (jobKey r.id) hk, g1]
          · exact ih5 r hr' hlt
        · intro r hr hnlt
          rcases List.mem_cons.mp hr with rfl | hr'
          · exact absurd hfut hnlt
          · rw [ih6 r hr' hnlt, g2 (jobKey r.id) (hk r hr')]
        · intro pid p hp
          have hfin := ih7 pid p hp
          rw [hfin]
          simp [List.filter_cons, h1]
      · -- deadline exactly now: neither expired nor rescheduled
        have hstep : recoverStep now (db, q) a = (db, q) := by
          simp [recoverStep, h1, h2]
        rw [hstep]
        obtain ⟨ih1, ih2, ih3, ih4, ih5, ih6, ih7⟩ :=
          ih db q hmemt hactt hnd2.2
        refine ⟨?_, ?_, ?_, ?_, ?_, ?_, ?_⟩
        · intro id hne
          exact ih1 id (fun r hr => hne r (List.mem_cons_of_mem a hr))
        · intro k hkk
          exact ih2 k (fun r hr => hkk r (List.mem_cons_of_mem a hr))
        · intro r hr hlt
          rcases List.mem_cons.mp hr with rfl | hr'
          · exact absurd hlt h1
          · exact ih3 r hr' hlt
        · intro r hr hnlt
          rcases List.mem_cons.mp hr with rfl | hr'
          · rw [ih1 r.id (hid), hA]
          · exact ih4 r hr' hnlt
        · intro r hr hlt
          rcases List.mem_cons.mp hr with rfl | hr'
          · exact absurd hlt (by omega)
          · exact ih5 r hr' hlt
        · intro r hr hnlt
          rcases List.mem_cons.mp hr with rfl | hr'
          · exact ih2 (jobKey r.id) hk
          · exact ih6 r hr' hnlt
        · intro pid p hp
          have hfin := ih7 pid p hp
          rw [hfin]
          simp [List.filter_cons, h1]

/-! ## Claim theorems -/

/-- Claim C1 (code_bug evaluation): the no-overselling invariant fails on
a concrete call sequence.  Product 1 starts with availableStock S = 1.
`create(1,1)` at t=0 holds the single unit.  At t=200000, past the
120000ms deadline, `complete(1)` fails with the "expired" error, but its
stock increment ran outside the rolled-back transaction: the reservation
stays Active while the stock is restored.  The expiration worker then
expires it, restoring the same unit a second time (stock 2), after which
`create(1,2)` succeeds.  The sum of Active/Completed quantities is now 2,
exceeding S = 1. -/
theorem c1_oversell_on_trace :
    db0.findProduct 1 = some { id := 1, availableStock := 1 } ∧
    heldQuantity (run db0 oversellOps) 1 = 2 ∧
    ¬ heldQuantity (run db0 oversellOps) 1 ≤ 1 := by
  refine ⟨by decide, by decide, by decide⟩

/-- Claim C2 (code_bug evaluation): `complete` on the Active reservation
of `dbStale` at t=200 (past its deadline of 100) returns the "expired"
error, but the reservation is left Active — the `tx` status write was
rolled back by the throw — while the out-of-transaction stock increment
persists; a second `complete` increments the stock again. -/
theorem c2_complete_after_deadline_bug :
    (complete 200 1 dbStale).1 = Except.error ServiceError.reservationExpired ∧
    (complete 200 1 dbStale).2.findReservation 1 =
      some { id := 1, productId := 1, quantity := 1,
             status := ReservationStatus.active, expiresAt := 100 } ∧
    ¬ (complete 200 1 dbStale).2.findReservation 1 =
      some { id := 1, productId := 1, quantity := 1,
             status := ReservationStatus.expired, expiresAt := 100 } ∧
    (complete 200 1 dbStale).2.findProduct 1 = some { id := 1, availableStock := 1 } ∧
    (complete 300 1 (complete 200 1 dbStale).2).2.findProduct 1 =
      some { id := 1, availableStock := 2 } := by
  refine ⟨rfl, by decide, by decide⟩

/-- Claim C3 (code_bug evaluation): an erroring call with a visible
partial stock mutation.  `complete` on the stale reservation fails with
the "expired" error yet the resulting database differs from the input:
the product's availableStock moved from 0 to 1 while the reservation's
status write was rolled back. -/
theorem c3_error_leaves_visible_mutation :
    (complete 200 1 dbStale).1 = Except.error ServiceError.reservationExpired ∧
    ¬ (complete 200 1 dbStale).2 = dbStale ∧
    ¬ (complete 200 1 dbStale).2.findProduct 1 = dbStale.findProduct 1 := by
  refine ⟨rfl, by decide, by decide⟩

/-- Claim C4 (counterexample): the claim says an InsufficientStock failure
still commits step 1's lazy expiration.  In `dbStale` (stock 0, one
Active reservation of quantity 1 past its deadline) `create(1,5)` at
t=200 performs the lazy expiration through `tx`, then throws
InsufficientStock, and Prisma rolls the whole transaction back: the stale
reservation is still Active and the stock is still 0 — not Expired with
stock 1 as the claim requires. -/
theorem c4_counterexample_rollback_includes_step1 :
    (create 200 1 5 dbStale).1 = Except.error ServiceError.insufficientStock ∧
    (create 200 1 5 dbStale).2 = dbStale ∧
    ¬ (create 200 1 5 dbStale).2.findReservation 1 =
      some { id := 1, productId := 1, quantity := 1,
             status := ReservationStatus.expired, expiresAt := 100 } ∧
    ¬ (create 200 1 5 dbStale).2.findProduct 1 = some { id := 1, availableStock := 1 } := by
  refine ⟨rfl, by decide, by decide⟩

/-- Claim C4 (amended): every write of `create` goes through the
transaction handle, so when `create` returns any error — in particular
InsufficientStock — the whole transaction, step 1's lazy expiration
included, is rolled back and the database is returned unchanged. -/
theorem c4_create_error_rolls_back_everything (now pid qty : Nat) (db : DB) (e : ServiceError)
    (h : (create now pid qty db).1 = Except.error e) :
    (create now pid qty db).2 = db := by
  unfold create at h ⊢
  cases hp : (applyLog db (expireRestoreLog (expiredFor now pid db) pid)).findProduct pid with
  | none => simp [hp]
  | some product =>
    by_cases hs : product.availableStock < (qty : Int)
    · simp [hp, hs]
    · simp [hp, hs] at h

/-- Claim C4 witness: the rollback theorem applied to the concrete
InsufficientStock failure on `dbStale`. -/
theorem c4_rollback_witness : (create 200 1 5 dbStale).2 = dbStale :=
  c4_create_error_rolls_back_everything 200 1 5 dbStale ServiceError.insufficientStock rfl

/-- Claim C9: `findOne` performs no writes — the database after the call
is exactly the database before it — and an existing reservation is
returned verbatim, so an Active reservation whose deadline has passed is
still reported Active: reads never trigger lazy expiration. -/
theorem c9_findOne_is_pure_read (id : Nat) (db : DB) :
    (findOne id db).2 = db ∧
    (∀ r, db.findReservation id = some r → (findOne id db).1 = Except.ok r) := by
  constructor
  · unfold findOne
    cases h : db.findReservation id <;> simp
  · intro r h
    unfold findOne
    rw [h]

/-- Claim C9 witness: reading the stale reservation of `dbStale` (Active,
deadline 100 long past) changes nothing and returns it still Active. -/
theorem c9_findOne_witness :
    (findOne 1 dbStale).2 = dbStale ∧
    (findOne 1 dbStale).1 =
      Except.ok { id := 1, productId := 1, quantity := 1,
                  status := ReservationStatus.active, expiresAt := 100 } :=
  ⟨(c9_findOne_is_pure_read 1 dbStale).1, (c9_findOne_is_pure_read 1 dbStale).2 _ rfl⟩

/-- Claim C10: `expire` has no deadline precondition.  For any Active
reservation — its `expiresAt` is never consulted — `expire` flips it to
Expired and restores its quantity to the product's availableStock. -/
theorem c10_expire_ignores_deadline (id : Nat) (db : DB) (r : Reservation) (p : Product)
    (h : db.findReservation id = some r) (hact : r.status = ReservationStatus.active)
    (hp : db.findProduct r.productId = some p) :
    (expire id db).findReservation id = some { r with status := ReservationStatus.expired } ∧
    (expire id db).findProduct r.productId =
      some { p with availableStock := p.availableStock + r.quantity } := by
  refine ⟨findReservation_expire_self h hact, ?_⟩
  rw [expire_of_active h hact, findProduct_setStatus, findProduct_incStock, hp,
      Option.map_some']
  simp [findProduct_beq hp]

/-- Claim C5: `expire` is idempotent.  A missing reservation is a no-op;
a non-Active reservation is a no-op; running `expire` twice from any
state equals running it once; and for an Active reservation the stock
restoration is applied exactly once — the product's stock after one and
after two runs is the original plus the reservation's quantity. -/
theorem c5_expire_idempotent (id : Nat) (db : DB) :
    (db.findReservation id = none → expire id db = db) ∧
    (∀ r, db.findReservation id = some r → r.status ≠ ReservationStatus.active →
      expire id db = db) ∧
    expire id (expire id db) = expire id db ∧
    (∀ r p, db.findReservation id = some r → r.status = ReservationStatus.active →
      db.findProduct r.productId = some p →
      (expire id db).findProduct r.productId =
        some { p with availableStock := p.availableStock + r.quantity } ∧
      (expire id (expire id db)).findProduct r.productId =
        some { p with availableStock := p.availableStock + r.quantity }) := by
  have hidem : expire id (expire id db) = expire id db := by
    cases h : db.findReservation id with
    | none => rw [expire_of_none h, expire_of_none h]
    | some r =>
      by_cases hact : r.status = ReservationStatus.active
      · exact expire_of_notActive (findReservation_expire_self h hact) (by simp)
      · rw [expire_of_notActive h hact, expire_of_notActive h hact]
  refine ⟨expire_of_none, fun r h hn => expire_of_notActive h hn, hidem, ?_⟩
  intro r p h hact hp
  have hstock : (expire id db).findProduct r.productId =
      some { p with availableStock := p.availableStock + r.quantity } := by
    rw [expire_of_active h hact, findProduct_setStatus, findProduct_incStock, hp,
        Option.map_some']
    simp [findProduct_beq hp]
  exact ⟨hstock, by rw [hidem]; exact hstock⟩

/-- Claim C5 witness: the idempotence theorem applied to `dbStale`: the
second run changes nothing and the single unit is restored once (stock
0 → 1 after one run and after two). -/
theorem c5_expire_idempotent_witness :
    expire 1 (expire 1 dbStale) = expire 1 dbStale ∧
    (expire 1 dbStale).findProduct 1 = some { id := 1, availableStock := 1 } ∧
    (expire 1 (expire 1 dbStale)).findProduct 1 = some { id := 1, availableStock := 1 } := by
  have h := (c5_expire_idempotent 1 dbStale).2.2.2
    { id := 1, productId := 1, quantity := 1,
      status := ReservationStatus.active, expiresAt := 100 }
    { id := 1, availableStock := 0 } rfl rfl rfl
  exact ⟨(c5_expire_idempotent 1 dbStale).2.2.1, h.1.trans (by decide), h.2.trans (by decide)⟩

/-- Claim C6: when the product exists and the stock visible after step 1's
lazy expiration covers the requested quantity, `create` succeeds with a
new Active reservation whose `expiresAt` is now + RESERVATION_DURATION_MS,
the constant equals 120 seconds, and the product's stock is decremented by
exactly the requested quantity relative to its post-step-1 value. -/
theorem c6_create_success (now pid qty : Nat) (db : DB) (p : Product)
    (hp : (applyLog db (expireRestoreLog (expiredFor now pid db) pid)).findProduct pid = some p)
    (hs : (qty : Int) ≤ p.availableStock) :
    (create now pid qty db).1 =
      Except.ok { id := (applyLog db (expireRestoreLog (expiredFor now pid db) pid)).nextId,
                  productId := pid, quantity := qty,
                  status := ReservationStatus.active,
                  expiresAt := now + RESERVATION_DURATION_MS } ∧
    RESERVATION_DURATION_MS = 120 * 1000 ∧
    (create now pid qty db).2.findProduct pid =
      some { p with availableStock := p.availableStock - qty } := by
  have hlt : ¬ p.availableStock < (qty : Int) := not_lt.mpr hs
  unfold create
  dsimp only
  rw [hp]
  dsimp only
  rw [if_neg hlt]
  refine ⟨rfl, rfl, ?_⟩
  unfold applyLog at hp ⊢
  dsimp only
  rw [List.foldl_append]
  show (applyWrite (applyWrite (List.foldl applyWrite db (expireRestoreLog (expiredFor now pid db) pid))
    (Write.createRes _)) (Write.decStock pid qty)).findProduct pid = _
  rw [findProduct_decStock, findProduct_createRes, hp, Option.map_some']
  simp [findProduct_beq hp]

/-- Claim C6 witness: on `dbStale` at t=200 the lazy expiration frees the
single unit; `create(1,1)` then succeeds with reservation id 2, deadline
200 + 120000 = 120200, and stock back to 0. -/
theorem c6_create_success_witness :
    (create 200 1 1 dbStale).1 =
      Except.ok { id := 2, productId := 1, quantity := 1,
                  status := ReservationStatus.active, expiresAt := 120200 } ∧
    (create 200 1 1 dbStale).2.findProduct 1 = some { id := 1, availableStock := 0 } := by
  have h := c6_create_success 200 1 1 dbStale { id := 1, availableStock := 1 }
    (by decide) (by decide)
  exact ⟨h.1.trans (congrArg Except.ok (by decide)), h.2.2.trans (by decide)⟩

/-- Claim C7 (counterexample): the claim says recovery expires every
Active reservation with expiresAt <= now.  In `dbStale` the single Active
reservation has expiresAt = 100; running recovery at now = 100 leaves the
database and queue completely unchanged: the reservation is not expired
(the code tests `now > expiresAt`, strictly) and no task is scheduled
either (the code requires `remainingTime > 0`). -/
theorem c7_counterexample_boundary_skipped :
    dbStale.findReservation 1 =
      some { id := 1, productId := 1, quantity := 1,
             status := ReservationStatus.active, expiresAt := 100 } ∧
    recoverReservations 100 dbStale [] = (dbStale, []) ∧
    ¬ (recoverReservations 100 dbStale []).1.findReservation 1 =
      some { id := 1, productId := 1, quantity := 1,
             status := ReservationStatus.expired, expiresAt := 100 } := by
  refine ⟨by decide, by decide, by decide⟩

/-- Claim C7 (amended): at recovery time, provided the Active snapshot's
job keys are pairwise distinct (distinct ids), `recoverReservations`
expires exactly those Active reservations with `expiresAt` strictly
before now (each left Expired, and each product's stock grows by the
summed quantities of its expired reservations), schedules exactly one
task — under the key `expire-<id>`, with delay `expiresAt - now` — for
each Active reservation with `expiresAt` strictly after now, and treats
a reservation with `expiresAt = now` as neither: it stays Active and its
key's queue entries are untouched.  Reservation ids and job keys outside
the Active snapshot are untouched. -/
theorem c7_recover_spec (now : Nat) (db : DB) (q : List Job)
    (hnd : (db.reservations.map (fun r => jobKey r.id)).Nodup) :
    (∀ r ∈ activeSnapshot db,
      (r.expiresAt < now →
        (recoverReservations now db q).1.findReservation r.id =
          some { r with status := ReservationStatus.expired }) ∧
      (¬ r.expiresAt < now →
        (recoverReservations now db q).1.findReservation r.id = some r) ∧
      (now < r.expiresAt →
        keyJobs (recoverReservations now db q).2 (jobKey r.id) =
          [{ key := jobKey r.id, delay := r.expiresAt - now }]) ∧
      (¬ now < r.expiresAt →
        keyJobs (recoverReservations now db q).2 (jobKey r.id) =
          keyJobs q (jobKey r.id))) ∧
    (∀ id, (∀ r ∈ activeSnapshot db, r.id ≠ id) →
      (recoverReservations now db q).1.findReservation id = db.findReservation id) ∧
    (∀ k, (∀ r ∈ activeSnapshot db, jobKey r.id ≠ k) →
      keyJobs (recoverReservations now db q).2 k = keyJobs q k) ∧
    (∀ pid p, db.findProduct pid = some p →
      (recoverReservations now db q).1.findProduct pid =
        some { p with availableStock := p.availableStock +
          (((activeSnapshot db).filter (fun r =>
              decide (r.expiresAt < now) && r.productId == pid)).map
            (fun r => r.quantity)).sum }) := by
  have hids : (db.reservations.map Reservation.id).Nodup := by
    have h2 : ((db.reservations.map Reservation.id).map jobKey).Nodup := by
      simpa [List.map_map, Function.comp] using hnd
    exact List.Nodup.of_map jobKey h2
  have hmem : ∀ r ∈ activeSnapshot db, db.findReservation r.id = some r :=
    fun r hr => find?_id_of_nodup db.reservations hids r (List.mem_of_mem_filter hr)
  have hact : ∀ r ∈ activeSnapshot db, r.status = ReservationStatus.active :=
    fun r hr => eq_of_beq (List.mem_filter.mp hr).2
  have hnd' : ((activeSnapshot db).map (fun r => jobKey r.id)).Nodup :=
    List.Nodup.sublist (List.Sublist.map _ (List.filter_sublist _)) hnd
  obtain ⟨ih1, ih2, ih3, ih4, ih5, ih6, ih7⟩ :=
    recover_foldl_spec now (activeSnapshot db) db q hmem hact hnd'
  exact ⟨fun r hr => ⟨ih3 r hr, ih4 r hr, ih5 r hr, ih6 r hr⟩, ih1, ih2, ih7⟩

/-- Claim C7 witness: recovery of `dbRecover` at now = 100 on an empty
queue.  The deadline-50 reservation is expired and its 2 units restored
(stock 0 → 2); the boundary deadline-100 reservation stays Active with no
task; the deadline-150 reservation stays Active with exactly one task of
delay 50 under key `expire-3`. -/
theorem c7_recover_witness :
    (recoverReservations 100 dbRecover []).1.findReservation 1 =
      some { id := 1, productId := 1, quantity := 2,
             status := ReservationStatus.expired, expiresAt := 50 } ∧
    (recoverReservations 100 dbRecover []).1.findReservation 2 =
      some { id := 2, productId := 1, quantity := 3,
             status := ReservationStatus.active, expiresAt := 100 } ∧
    keyJobs (recoverReservations 100 dbRecover []).2 (jobKey 2) = [] ∧
    (recoverReservations 100 dbRecover []).1.findReservation 3 =
      some { id := 3, productId := 1, quantity := 4,
             status := ReservationStatus.active, expiresAt := 150 } ∧
    keyJobs (recoverReservations 100 dbRecover []).2 (jobKey 3) =
      [{ key := jobKey 3, delay := 50 }] ∧
    (recoverReservations 100 dbRecover []).1.findProduct 1 =
      some { id := 1, availableStock := 2 } := by
  obtain ⟨hres, _, _, hstock⟩ := c7_recover_spec 100 dbRecover [] (by decide)
  have h1 := hres
    { id := 1, productId := 1, quantity := 2,
      status := ReservationStatus.active, expiresAt := 50 } (by decide)
  have h2 := hres
    { id := 2, productId := 1, quantity := 3,
      status := ReservationStatus.active, expiresAt := 100 } (by decide)
  have h3 := hres
    { id := 3, productId := 1, quantity := 4,
      status := ReservationStatus.active, expiresAt := 150 } (by decide)
  refine ⟨h1.1 (by decide), h2.2.1 (by decide), ?_, h3.2.1 (by decide),
    (h3.2.2.1 (by decide)).trans (by decide), ?_⟩
  · exact (h2.2.2.2 (by decide)).trans rfl
  · exact (hstock 1 { id := 1, availableStock := 0 } rfl).trans (by decide)

/-- Claim C8 (counterexample): the claim says every `schedule` call with
no pending task enqueues one task with delay `max(0, expiresAt - now)`.
At `expiresAt = now = 100` that delay is 0, but the code only enqueues
under `if (delay > 0)`: nothing is enqueued at all. -/
theorem c8_counterexample_zero_delay_not_enqueued :
    max 0 ((100 : Int) - 100) = 0 ∧
    scheduleExpirationJob 100 7 100 [] = [] ∧
    ¬ ∃ j, getJob (scheduleExpirationJob 100 7 100 []) (jobKey 7) = some j := by
  refine ⟨by decide, rfl, ?_⟩
  rintro ⟨j, hj⟩
  rw [show scheduleExpirationJob 100 7 100 [] = [] from rfl] at hj
  exact Option.noConfusion hj

/-- Claim C8 (amended): `schedule(id, expiresAt)` is a no-op when a task
with the stable key `expire-<id>` is already pending; otherwise it
computes `delay = max(0, expiresAt - now)` and enqueues one task under
that key with that delay only when the delay is positive — when
`expiresAt <= now` no task is enqueued. -/
theorem c8_schedule_spec (now id expiresAt : Nat) (q : List Job) :
    (∀ j, getJob q (jobKey id) = some j → scheduleExpirationJob now id expiresAt q = q) ∧
    (getJob q (jobKey id) = none →
      (now < expiresAt →
        scheduleExpirationJob now id expiresAt q =
          addJob q (jobKey id) (expiresAt - now)) ∧
      (expiresAt ≤ now → scheduleExpirationJob now id expiresAt q = q)) := by
  constructor
  · intro j hj
    unfold scheduleExpirationJob
    rw [hj]
  · intro hnone
    unfold scheduleExpirationJob
    rw [hnone]
    dsimp only
    constructor
    · intro hlt
      have hpos : (0 : Int) < (expiresAt : Int) - (now : Int) :=
        sub_pos.mpr (by exact_mod_cast hlt)
      rw [max_eq_right (le_of_lt hpos), if_pos hpos, Int.toNat_sub]
    · intro hle
      have hnp : (expiresAt : Int) - (now : Int) ≤ 0 :=
        sub_nonpos.mpr (by exact_mod_cast hle)
      rw [max_eq_left hnp, if_neg (lt_irrefl 0)]

/-- Claim C8 witness: scheduling id 7 with 50ms remaining on an empty
queue enqueues one task with key `expire-7` and delay 50; scheduling it
again is a no-op. -/
theorem c8_schedule_witness :
    scheduleExpirationJob 100 7 150 [] = [{ key := jobKey 7, delay := 50 }] ∧
    scheduleExpirationJob 100 7 150 (scheduleExpirationJob 100 7 150 []) =
      scheduleExpirationJob 100 7 150 [] := by
  have h1 := ((c8_schedule_spec 100 7 150 []).2 rfl).1 (by decide)
  have h2 := (c8_schedule_spec 100 7 150 [{ key := jobKey 7, delay := 50 }]).1
    { key := jobKey 7, delay := 50 } (by simp [getJob, jobKey])
  have he : scheduleExpirationJob 100 7 150 [] = [{ key := jobKey 7, delay := 50 }] :=
    h1.trans (by decide : addJob [] (jobKey 7) (150 - 100) = [{ key := jobKey 7, delay := 50 }])
  refine ⟨he, ?_⟩
  rw [he]
  exact h2

/-- Claim C10 witness: `dbFresh`'s reservation (deadline 120000, still in
the future at any small now) is expired anyway and its 2 units restored. -/
theorem c10_expire_witness :
    (expire 1 dbFresh).findReservation 1 =
      some { id := 1, productId := 1, quantity := 2,
             status := ReservationStatus.expired, expiresAt := 120000 } ∧
    (expire 1 dbFresh).findProduct 1 = some { id := 1, availableStock := 5 } := by
  have h := c10_expire_ignores_deadline 1 dbFresh
    { id := 1, productId := 1, quantity := 2,
      status := ReservationStatus.active, expiresAt := 120000 }
    { id := 1, availableStock := 3 } rfl rfl rfl
  exact ⟨h.1, h.2.trans (by decide)⟩

end ReservationSystem
